import Mathlib

/-!
Shallow embedding of the Conversational Response & Insight Engine of the
ChatAppDotNet repository (file `src/server/index.js`), together with proofs
of the specification's claims about it.

The engine consists of: the `HealthChatbot` class (`generateResponse`,
`generateHealthSummary`, `getRandomResponse`), the in-memory stores
(`healthData`, `conversations`), the Express route handlers, and
`generateHealthInsights`.  JavaScript numbers are modelled as rationals,
JavaScript strings as Lean strings, `Date` values as integers
(milliseconds), and the `Map`/object stores as association lists.
-/

set_option autoImplicit false

namespace ChatApp

/-- Metric kinds accepted by the Joi `healthMetricSchema` in
`src/server/index.js` (the fixed ten-element enumeration). -/
inductive MType where
  | weight
  | height
  | blood_pressure
  | heart_rate
  | blood_sugar
  | temperature
  | sleep_hours
  | steps
  | water_intake
  | exercise_minutes
  deriving DecidableEq, Repr

/-- String key of a metric type, exactly as stored in the `type` field of a
record (the Joi enumeration strings). -/
def MType.key : MType → String
  | .weight => "weight"
  | .height => "height"
  | .blood_pressure => "blood_pressure"
  | .heart_rate => "heart_rate"
  | .blood_sugar => "blood_sugar"
  | .temperature => "temperature"
  | .sleep_hours => "sleep_hours"
  | .steps => "steps"
  | .water_intake => "water_intake"
  | .exercise_minutes => "exercise_minutes"

/-- JavaScript values allowed in a measurement's `value` field: the Joi
schema accepts a number, a string, or an object.  Numbers are modelled as
rationals (the repository only ever formats integer-valued numbers or
strings into replies). -/
inductive JSValue where
  | num (q : ℚ)
  | str (s : String)
  | obj
  deriving DecidableEq, Repr

/-- Rendering of a number inside a JavaScript template literal.  The
repository's composed replies only ever contain integer-valued numbers or
strings, so the model is exact on integers; non-integers fall back to the
Lean rational printer (never reached by any claim). -/
def jsNumToString (q : ℚ) : String :=
  if q.den = 1 then
    (if q.num < 0 then "-" ++ toString q.num.natAbs else toString q.num.natAbs)
  else toString q

/-- Rendering of a `value` inside a template literal such as
`"Your latest weight is ${latest.value} ..."`. -/
def showValue : JSValue → String
  | .num q => jsNumToString q
  | .str s => s
  | .obj => "[object Object]"

/-- Tests whether the character list `sub` is an initial segment of `s`. -/
def charsLead : List Char → List Char → Bool
  | [], _ => true
  | _ :: _, [] => false
  | a :: as, b :: bs => a == b && charsLead as bs

/-- Tests whether `sub` occurs contiguously anywhere inside `s`. -/
def charsOccur (sub : List Char) : List Char → Bool
  | [] => charsLead sub []
  | c :: rest => charsLead sub (c :: rest) || charsOccur sub rest

/-- Model of JavaScript `s.includes(sub)`: plain substring containment. -/
def jsIncludes (s sub : String) : Bool :=
  charsOccur sub.data s.data

/-- Model of JavaScript `message.toLowerCase()`: character-wise lowering
(all keywords the chatbot searches for are ASCII, where the two agree). -/
def jsToLowerCase (s : String) : String :=
  String.mk (s.data.map Char.toLower)

/-- One stored measurement record (the `healthMetric` object built by the
`POST /api/health/data` handler: id, the validated payload fields, and a
timestamp). -/
structure HRecord where
  id : String
  type : MType
  value : JSValue
  unit : String
  timestamp : Int
  notes : Option String := none
  deriving DecidableEq, Repr

/-- The three canned greeting strings (`this.responses.greeting`). -/
def greetingResponses : List String :=
  [ "Hello! I\x27m your health assistant. How can I help you track your health today?"
  , "Hi there! I\x27m here to help you monitor your health metrics. What would you like to know?"
  , "Welcome! I can help you track weight, blood pressure, heart rate, and more. How can I assist you?" ]

/-- Advice string `this.responses.weight.advice`. -/
def weightAdvice : String :=
  "For healthy weight management: eat balanced meals, stay hydrated, exercise regularly, and get adequate sleep."

/-- Advice string `this.responses.blood_pressure.advice`. -/
def bloodPressureAdvice : String :=
  "To maintain healthy blood pressure: reduce sodium intake, exercise regularly, manage stress, and limit alcohol."

/-- Advice string `this.responses.heart_rate.advice`. -/
def heartRateAdvice : String :=
  "To improve heart health: do cardio exercises, manage stress, get quality sleep, and maintain a healthy diet."

/-- Advice string `this.responses.blood_sugar.advice` (present in the
response table but never reached by `generateResponse`, which has no
blood-sugar query branch). -/
def bloodSugarAdvice : String :=
  "To maintain healthy blood sugar: eat balanced meals, exercise regularly, monitor portions, and take medications as prescribed."

/-- Canned no-data reply of the weight query branch. -/
def weightNoDataMsg : String :=
  "I don\x27t have any weight data recorded yet. Would you like to log your weight?"

/-- Canned no-data reply of the blood-pressure query branch. -/
def bloodPressureNoDataMsg : String :=
  "No blood pressure data found. Would you like to record your blood pressure?"

/-- Canned no-data reply of the heart-rate query branch. -/
def heartRateNoDataMsg : String :=
  "No heart rate data recorded. Would you like to log your heart rate?"

/-- Reply of the summary branch when the measurement list is empty. -/
def emptySummaryMsg : String :=
  "You haven\x27t recorded any health data yet. Start by logging some metrics like weight, blood pressure, or heart rate!"

/-- Reply of the help branch. -/
def helpMsg : String :=
  "I can help you:\n• Track health metrics (weight, blood pressure, heart rate, blood sugar, etc.)\n• Provide health tips and advice\n• Give you summaries of your health data\n• Answer questions about your health trends\n\nTry saying things like \"log my weight\" or \"show my blood pressure\" or \"give me a health summary\""

/-- The fall-through reply, echoing the raw message text. -/
def defaultResponse (message : String) : String :=
  "I understand you\x27re asking about \"" ++ message ++ "\". I can help you track health metrics, provide health advice, and analyze your data. Try asking me to \"log weight\", \"show blood pressure\", or \"give health summary\". What specific health information would you like to discuss?"

/-- Model of `getRandomResponse`: the source picks the element at index
`Math.floor(Math.random() * responses.length)`, a uniformly random index in
`[0, responses.length)`.  The model takes the random draw as the natural
number `r` and reduces it into range with `%`. -/
def getRandomResponse (responses : List String) (r : Nat) : String :=
  if h : 0 < responses.length then
    responses.get ⟨r % responses.length, Nat.mod_lt r h⟩
  else ""

/-- The `typeGroups` object built by `forEach` loops in
`generateHealthSummary` and `generateHealthInsights`: pushing a record onto
the group of its type, creating the group at the end when the key is new
(JavaScript objects keep string keys in first-insertion order). -/
def pushGroup (t : MType) (rec : HRecord) :
    List (MType × List HRecord) → List (MType × List HRecord)
  | [] => [(t, [rec])]
  | (k, g) :: rest =>
      if k == t then (k, g ++ [rec]) :: rest else (k, g) :: pushGroup t rec rest

/-- Grouping a record list by `type`, preserving each group's insertion
order and listing keys in first-occurrence order. -/
def typeGroups (data : List HRecord) : List (MType × List HRecord) :=
  data.foldl (fun acc d => pushGroup d.type d acc) []

/-- Replacement of the first underscore by a space, the effect of
JavaScript `type.replace(\x27_\x27, \x27 \x27)` (which replaces only the
first occurrence of a plain-string pattern). -/
def replaceFirstUnderscore : List Char → List Char
  | [] => []
  | c :: cs => if c == '_' then ' ' :: cs else c :: replaceFirstUnderscore cs

/-- Humanized type heading used by the summary:
`type.replace(\x27_\x27, \x27 \x27).toUpperCase()`. -/
def humanTypeName (t : MType) : String :=
  String.map Char.toUpper (String.mk (replaceFirstUnderscore t.key.data))

/-- Placeholder record handed to `getLastD`; the groups produced by
`typeGroups` are always non-empty, so it is never actually selected. -/
def dummyRecord : HRecord :=
  { id := "", type := .weight, value := .obj, unit := "", timestamp := 0 }

/-- One summary line: the group's last-inserted record's value and unit,
the humanized type name, and the group's record count. -/
def summaryLine (t : MType) (g : List HRecord) : String :=
  let latest := g.getLastD dummyRecord
  "• **" ++ humanTypeName t ++ "**: " ++ showValue latest.value ++ " " ++
    latest.unit ++ " (" ++ toString g.length ++ " recordings)\n"

/-- The per-group lines of the health summary, in group order. -/
def summaryLines (data : List HRecord) : List String :=
  (typeGroups data).map (fun p => summaryLine p.1 p.2)

/-- Closing line appended by `generateHealthSummary`. -/
def summaryClosing : String :=
  "\n💡 Keep up the great work tracking your health! Regular monitoring helps you stay on top of your wellness goals."

/-- Model of `HealthChatbot.generateHealthSummary`. -/
def generateHealthSummary (data : List HRecord) : String :=
  "📊 **Health Summary:**\n\n" ++ String.join (summaryLines data) ++ summaryClosing

/-- Model of `HealthChatbot.generateResponse`.  The random draw used by the
greeting branch is the explicit parameter `r`; `message` and `healthData`
are the source's two parameters. -/
def generateResponse (r : Nat) (message : String) (healthData : List HRecord) : String :=
  let msg := jsToLowerCase message
  if jsIncludes msg "hello" || jsIncludes msg "hi" || jsIncludes msg "hey" then
    getRandomResponse greetingResponses r
  else if jsIncludes msg "weight" then
    let weightData := healthData.filter (fun d => d.type == MType.weight)
    match weightData.getLast? with
    | some latest =>
        "Your latest weight is " ++ showValue latest.value ++ " " ++ latest.unit ++
          ". " ++ weightAdvice
    | none => weightNoDataMsg
  else if jsIncludes msg "blood pressure" then
    let bpData := healthData.filter (fun d => d.type == MType.blood_pressure)
    match bpData.getLast? with
    | some latest =>
        "Your latest blood pressure is " ++ showValue latest.value ++ ". " ++
          bloodPressureAdvice
    | none => bloodPressureNoDataMsg
  else if jsIncludes msg "heart rate" then
    let hrData := healthData.filter (fun d => d.type == MType.heart_rate)
    match hrData.getLast? with
    | some latest =>
        "Your latest heart rate is " ++ showValue latest.value ++ " " ++ latest.unit ++
          ". " ++ heartRateAdvice
    | none => heartRateNoDataMsg
  else if jsIncludes msg "summary" || jsIncludes msg "overview" then
    if healthData.length == 0 then emptySummaryMsg
    else generateHealthSummary healthData
  else if jsIncludes msg "help" || jsIncludes msg "what can you do" then
    helpMsg
  else
    defaultResponse message

/-! Insights engine (`generateHealthInsights`). -/

/-- Whitespace characters skipped by `parseFloat`. -/
def isWS (c : Char) : Bool :=
  c == ' ' || c == '\t' || c == '\n' || c == '\r'

/-- Longest leading run of decimal digits, returned as digit values
together with the remaining characters. -/
def takeDigits : List Char → List Nat × List Char
  | [] => ([], [])
  | c :: cs =>
      if c.isDigit then
        let (ds, rest) := takeDigits cs
        ((c.toNat - 48) :: ds, rest)
      else ([], c :: cs)

/-- Natural number denoted by a digit-value list (most significant first). -/
def digitsVal (ds : List Nat) : Nat :=
  ds.foldl (fun a d => a * 10 + d) 0

/-- Optional leading sign. -/
def parseSign : List Char → Int × List Char
  | '-' :: cs => (-1, cs)
  | '+' :: cs => (1, cs)
  | cs => (1, cs)

/-- Optional exponent part `e`/`E`, sign, digits; consumed only when at
least one digit follows. -/
def parseExp (cs : List Char) : Int :=
  match cs with
  | 'e' :: rest =>
      let (s, rest2) := parseSign rest
      let (ds, _) := takeDigits rest2
      if ds.isEmpty then 0 else s * (digitsVal ds : Int)
  | 'E' :: rest =>
      let (s, rest2) := parseSign rest
      let (ds, _) := takeDigits rest2
      if ds.isEmpty then 0 else s * (digitsVal ds : Int)
  | _ => 0

/-- Discrete phase of the `parseFloat` model: skip leading whitespace, read
an optional sign and the longest prefix shaped like a decimal literal
(digits, optional fraction, optional exponent) and ignore everything after
it.  Returns the sign, the integer-part value, the fraction-part value and
digit count, and the exponent; `none` (NaN) when no digit is read. -/
def parseParts (cs0 : List Char) : Option (Int × Nat × Nat × Nat × Int) :=
  let cs1 := cs0.dropWhile isWS
  let (sign, cs2) := parseSign cs1
  let (ints, cs3) := takeDigits cs2
  let (fracs, cs4) :=
    match cs3 with
    | '.' :: rest => takeDigits rest
    | _ => ([], cs3)
  if ints.isEmpty && fracs.isEmpty then none
  else some (sign, digitsVal ints, digitsVal fracs, fracs.length, parseExp cs4)

/-- Model of JavaScript `parseFloat` on a string: the number denoted by the
longest decimal-literal prefix found by `parseParts`, or `none` (NaN) when
there is no such prefix.  In particular `"120/80"` parses to `120`.  (The
special literal `"Infinity"` is modelled as NaN; no claim involves it.) -/
def jsParseFloatChars (cs0 : List Char) : Option ℚ :=
  (parseParts cs0).map (fun p =>
    let (sign, intV, fracV, fracLen, e) := p
    let mant : ℚ := (intV : ℚ) + (fracV : ℚ) / ((10 : ℚ) ^ fracLen)
    let scaled : ℚ := if 0 ≤ e then mant * (10 : ℚ) ^ e.toNat else mant / (10 : ℚ) ^ (-e).toNat
    (sign : ℚ) * scaled)

/-- Model of `parseFloat(value)` for a record's `value` field: JavaScript
first converts the argument to a string.  A finite number converts to its
own literal and parses back to itself; an object converts to
`"[object Object]"`, which parses to NaN. -/
def jsParseFloat : JSValue → Option ℚ
  | .num q => some q
  | .str s => jsParseFloatChars s.data
  | .obj => none

/-- Rational denoted by the string `x.toFixed(1)`: ECMA `toFixed` picks the
integer `n` minimizing the distance of `n / 10` to `x`, ties going to the
larger `n`, i.e. `n = ⌊10 * x + 1/2⌋`. -/
def toFixed1 (q : ℚ) : ℚ :=
  ((⌊q * 10 + 1 / 2⌋ : ℤ) : ℚ) / 10

/-- Stable insertion of a record into a timestamp-ascending list: the new
record goes after every record whose timestamp is not greater. -/
def insertByTs (x : HRecord) : List HRecord → List HRecord
  | [] => [x]
  | y :: ys => if x.timestamp < y.timestamp then x :: y :: ys else y :: insertByTs x ys

/-- Model of `records.sort((a, b) => new Date(a.timestamp) - new Date(b.timestamp))`:
a stable ascending sort by timestamp (ECMAScript `Array.prototype.sort` is
stable). -/
def sortByTs (l : List HRecord) : List HRecord :=
  l.foldl (fun acc x => insertByTs x acc) []

/-- One trend entry of the insights report. -/
structure TrendEntry where
  change : ℚ
  percentChange : ℚ
  direction : String
  recordCount : Nat
  deriving DecidableEq, Repr

/-- Trend computation for one type group: sort by timestamp ascending and,
when the group has at least two members and both the first and the last
member's `value` parse as numbers, report the first-to-last change.  The
`percentChange` field models the string produced by `toFixed(1)` as the
rational it denotes (for a zero first value the source divides by zero,
producing a non-numeric string; no claim involves that case).  The source's
accesses `records[0]` and `records[records.length - 1]` are modelled with
`head?` and `getLast?`, which return a value exactly when the length guard
holds; the `none` fallbacks are unreachable under the guard. -/
def trendFor (g : List HRecord) : Option TrendEntry :=
  let records := sortByTs g
  if 2 ≤ records.length then
    match records.head?, records.getLast? with
    | some firstRec, some lastRec =>
        (match jsParseFloat firstRec.value, jsParseFloat lastRec.value with
         | some firstV, some lastV =>
             let change := lastV - firstV
             some { change := change
                  , percentChange := toFixed1 (change / firstV * 100)
                  , direction :=
                      if 0 < change then "increase"
                      else if change < 0 then "decrease" else "stable"
                  , recordCount := records.length }
         | _, _ => none)
    | _, _ => none
  else none

/-- First-occurrence deduplication with an explicit seen accumulator. -/
def dedupFirstAux {α : Type} [DecidableEq α] (seen : List α) : List α → List α
  | [] => []
  | x :: xs =>
      if x ∈ seen then dedupFirstAux seen xs
      else x :: dedupFirstAux (x :: seen) xs

/-- First-occurrence deduplication: the effect of `[...new Set(l)]`
(JavaScript `Set` iterates in insertion order) and also the key order of a
plain object built by key-insertion grouping. -/
def dedupFirst {α : Type} [DecidableEq α] (l : List α) : List α :=
  dedupFirstAux [] l

/-- Recommendation pushed when fewer than 3 metric types are tracked. -/
def moreMetricsRec : String :=
  "Consider tracking more health metrics like blood pressure, heart rate, or sleep hours for a complete picture."

/-- Recommendation pushed when fewer than 7 records exist in total. -/
def moreFrequentRec : String :=
  "Try to log health data more frequently for better trend analysis."

/-- Unconditional closing recommendation. -/
def closingRec : String :=
  "Great job tracking your health! Consistency is key to achieving your wellness goals."

/-- The insights report object. -/
structure Insights where
  totalRecords : Nat
  metricsTracked : List MType
  trends : List (MType × TrendEntry)
  recommendations : List String
  deriving DecidableEq, Repr

/-- Model of `generateHealthInsights`: record count, distinct types in
first-occurrence order (`[...new Set(...)]`), per-type trend entries in
group-key order with non-parseable or undersized groups omitted, and the
three conditional/unconditional recommendations in push order. -/
def generateHealthInsights (data : List HRecord) : Insights :=
  { totalRecords := data.length
  , metricsTracked := dedupFirst (data.map (fun d => d.type))
  , trends := (typeGroups data).filterMap (fun p => (trendFor p.2).map (fun e => (p.1, e)))
  , recommendations :=
      (if (dedupFirst (data.map (fun d => d.type))).length < 3 then [moreMetricsRec] else []) ++
      (if data.length < 7 then [moreFrequentRec] else []) ++
      [closingRec] }

/-- Lookup of the trend entry recorded for a type (reading the field
`insights.trends[type]`). -/
def trendOf (t : MType) : List (MType × TrendEntry) → Option TrendEntry
  | [] => none
  | (k, e) :: rest => if k == t then some e else trendOf t rest

/-! Stores and route handlers. -/

/-- One conversation turn as pushed by the chat handler. -/
structure Turn where
  type : String
  message : String
  timestamp : Int
  deriving DecidableEq, Repr

/-- Reading a key of a JavaScript `Map` modelled as an association list. -/
def alGet {α : Type} (m : List (String × α)) (k : String) : Option α :=
  (m.find? (fun p => p.1 == k)).map (fun p => p.2)

/-- Writing a key of a JavaScript `Map`: replace the existing binding or
append a new one. -/
def alSet {α : Type} (m : List (String × α)) (k : String) (v : α) : List (String × α) :=
  match m with
  | [] => [(k, v)]
  | (k', v') :: rest => if k' == k then (k, v) :: rest else (k', v') :: alSet rest k v

/-- The two global in-memory stores (`healthData` and `conversations`). -/
structure ServerState where
  healthData : List (String × List HRecord)
  conversations : List (String × List Turn)
  deriving DecidableEq, Repr

/-- The state at server start: both maps empty. -/
def initialState : ServerState := ⟨[], []⟩

/-- The validated body of `POST /api/health/data` after Joi validation
(`timestamp` is optional in the request; Joi fills `Date.now` as a default
when it is absent). -/
structure MetricInput where
  type : MType
  value : JSValue
  unit : String
  timestamp : Option Int := none
  notes : Option String := none
  userId : Option String := none
  deriving DecidableEq, Repr

/-- Model of the `POST /api/health/data` handler.  The source builds
`{ id: uuidv4(), ...value, timestamp: new Date() }`: the `timestamp` field
written after the spread overwrites the validated (client-supplied or
Joi-defaulted) timestamp unconditionally, so the stored timestamp is always
the write time `now`.  The fresh uuid is the parameter `freshId`. -/
def postHealthDataHandler (st : ServerState) (input : MetricInput)
    (freshId : String) (now : Int) : ServerState × HRecord :=
  let healthMetric : HRecord :=
    { id := freshId, type := input.type, value := input.value, unit := input.unit,
      timestamp := now, notes := input.notes }
  let userId := input.userId.getD "default"
  let seq := (alGet st.healthData userId).getD []
  ({ st with healthData := alSet st.healthData userId (seq ++ [healthMetric]) }, healthMetric)

/-- Model of the `GET /api/health/data/:userId?` handler: an absent user
yields an empty list, and the state is untouched. -/
def getHealthDataHandler (st : ServerState) (userId : String) :
    ServerState × List HRecord :=
  (st, (alGet st.healthData userId).getD [])

/-- Empty-store reply of the insights endpoint. -/
def noInsightsDataMsg : String :=
  "No health data available for insights. Start tracking your health metrics!"

/-- Model of the `GET /api/health/insights/:userId?` handler: the fixed
no-data message for an empty history, otherwise the insights report; the
state is untouched either way. -/
def insightsHandler (st : ServerState) (userId : String) :
    ServerState × (String ⊕ Insights) :=
  let userData := (alGet st.healthData userId).getD []
  if userData.length == 0 then (st, Sum.inl noInsightsDataMsg)
  else (st, Sum.inr (generateHealthInsights userData))

/-- JavaScript `l.slice(-n)`: the last `n` elements (all of them when the
list is shorter). -/
def jsSliceLast {α : Type} (n : Nat) (l : List α) : List α :=
  l.drop (l.length - n)

/-- Response body of the chat endpoint. -/
structure ChatResult where
  response : String
  sessionId : String
  conversation : List Turn
  deriving DecidableEq, Repr

/-- Model of the `POST /api/chat` handler: fetch the user's measurements,
generate the reply, push the user turn and the bot turn onto the session's
conversation, and return the reply together with the last 10 turns.  The
two `new Date()` calls are the parameters `nowU` and `nowB`; the random
draw of the greeting branch is `r`. -/
def chatHandler (st : ServerState) (message sessionId userId : String)
    (r : Nat) (nowU nowB : Int) : ServerState × ChatResult :=
  let userData := (alGet st.healthData userId).getD []
  let response := generateResponse r message userData
  let conversation := (alGet st.conversations sessionId).getD []
  let conversation' := conversation ++
    [ { type := "user", message := message, timestamp := nowU }
    , { type := "bot", message := response, timestamp := nowB } ]
  ({ st with conversations := alSet st.conversations sessionId conversation' },
    { response := response, sessionId := sessionId,
      conversation := jsSliceLast 10 conversation' })

/-- One request to the chat endpoint (message, session, user, and the
nondeterministic inputs: random draw and the two clock reads). -/
structure ChatCall where
  message : String
  sessionId : String
  userId : String
  rand : Nat
  nowU : Int
  nowB : Int
  deriving DecidableEq, Repr

/-- Sequential execution of a list of chat requests, collecting every
response body. -/
def runChats (st : ServerState) : List ChatCall → ServerState × List ChatResult
  | [] => (st, [])
  | c :: cs =>
      let sr := chatHandler st c.message c.sessionId c.userId c.rand c.nowU c.nowB
      let rest := runChats sr.1 cs
      (rest.1, sr.2 :: rest.2)

/-! Supporting lemmas about grouping and deduplication. -/

theorem mem_dedupFirstAux {α : Type} [DecidableEq α] (l : List α) :
    ∀ (seen : List α) (a : α), a ∈ dedupFirstAux seen l ↔ a ∈ l ∧ a ∉ seen := by
  induction l with
  | nil => intro seen a; simp [dedupFirstAux]
  | cons x xs ih =>
      intro seen a
      by_cases hx : x ∈ seen
      · rw [show dedupFirstAux seen (x :: xs) = dedupFirstAux seen xs by
          simp [dedupFirstAux, hx], ih]
        constructor
        · rintro ⟨h1, h2⟩; exact ⟨List.mem_cons_of_mem _ h1, h2⟩
        · rintro ⟨h1, h2⟩
          rcases List.mem_cons.mp h1 with rfl | h1
          · exact absurd hx h2
          · exact ⟨h1, h2⟩
      · rw [show dedupFirstAux seen (x :: xs) = x :: dedupFirstAux (x :: seen) xs by
          simp [dedupFirstAux, hx]]
        constructor
        · intro h
          rcases List.mem_cons.mp h with rfl | h
          · exact ⟨List.mem_cons_self _ _, hx⟩
          · obtain ⟨h1, h2⟩ := (ih _ _).mp h
            exact ⟨List.mem_cons_of_mem _ h1, fun hc => h2 (List.mem_cons_of_mem _ hc)⟩
        · rintro ⟨h1, h2⟩
          rcases List.mem_cons.mp h1 with rfl | h1
          · exact List.mem_cons_self _ _
          · by_cases hax : a = x
            · subst hax; exact List.mem_cons_self _ _
            · refine List.mem_cons_of_mem _ ((ih _ _).mpr ⟨h1, fun hc => ?_⟩)
              rcases List.mem_cons.mp hc with h | h
              · exact hax h
              · exact h2 h

theorem nodup_dedupFirstAux {α : Type} [DecidableEq α] (l : List α) :
    ∀ seen : List α, (dedupFirstAux seen l).Nodup := by
  induction l with
  | nil => intro seen; simp [dedupFirstAux]
  | cons x xs ih =>
      intro seen
      by_cases hx : x ∈ seen
      · rw [show dedupFirstAux seen (x :: xs) = dedupFirstAux seen xs by
          simp [dedupFirstAux, hx]]
        exact ih seen
      · rw [show dedupFirstAux seen (x :: xs) = x :: dedupFirstAux (x :: seen) xs by
          simp [dedupFirstAux, hx]]
        refine List.nodup_cons.mpr ⟨fun hc => ?_, ih (x :: seen)⟩
        exact ((mem_dedupFirstAux xs (x :: seen) x).mp hc).2 (List.mem_cons_self x seen)

theorem mem_dedupFirst {α : Type} [DecidableEq α] (l : List α) (a : α) :
    a ∈ dedupFirst l ↔ a ∈ l := by
  simp [dedupFirst, mem_dedupFirstAux]

theorem nodup_dedupFirst {α : Type} [DecidableEq α] (l : List α) :
    (dedupFirst l).Nodup :=
  nodup_dedupFirstAux l []

theorem dedupFirstAux_concat {α : Type} [DecidableEq α] (l : List α) (t : α) :
    ∀ seen : List α, dedupFirstAux seen (l ++ [t]) =
      dedupFirstAux seen l ++ (if t ∈ seen ∨ t ∈ l then [] else [t]) := by
  induction l with
  | nil => intro seen; by_cases h : t ∈ seen <;> simp [dedupFirstAux, h]
  | cons x xs ih =>
      intro seen
      by_cases hx : x ∈ seen
      · have hcond : (t ∈ seen ∨ t ∈ x :: xs) ↔ (t ∈ seen ∨ t ∈ xs) := by
          constructor
          · rintro (h | h)
            · exact Or.inl h
            · rcases List.mem_cons.mp h with rfl | h
              · exact Or.inl hx
              · exact Or.inr h
          · rintro (h | h)
            · exact Or.inl h
            · exact Or.inr (List.mem_cons_of_mem _ h)
        rw [List.cons_append,
          show dedupFirstAux seen (x :: (xs ++ [t])) = dedupFirstAux seen (xs ++ [t]) by
            simp [dedupFirstAux, hx],
          show dedupFirstAux seen (x :: xs) = dedupFirstAux seen xs by
            simp [dedupFirstAux, hx],
          ih seen]
        by_cases hc : t ∈ seen ∨ t ∈ xs
        · rw [if_pos hc, if_pos (hcond.mpr hc)]
        · rw [if_neg hc, if_neg (fun h => hc (hcond.mp h))]
      · have hcond : (t ∈ seen ∨ t ∈ x :: xs) ↔ (t ∈ x :: seen ∨ t ∈ xs) := by
          simp only [List.mem_cons]
          tauto
        rw [List.cons_append,
          show dedupFirstAux seen (x :: (xs ++ [t])) = x :: dedupFirstAux (x :: seen) (xs ++ [t]) by
            simp [dedupFirstAux, hx],
          show dedupFirstAux seen (x :: xs) = x :: dedupFirstAux (x :: seen) xs by
            simp [dedupFirstAux, hx],
          ih (x :: seen)]
        by_cases hc : t ∈ x :: seen ∨ t ∈ xs
        · rw [if_pos hc, if_pos (hcond.mpr hc)]; simp
        · rw [if_neg hc, if_neg (fun h => hc (hcond.mp h))]; simp

theorem dedupFirst_concat {α : Type} [DecidableEq α] (l : List α) (t : α) :
    dedupFirst (l ++ [t]) = dedupFirst l ++ (if t ∈ l then [] else [t]) := by
  simp [dedupFirst, dedupFirstAux_concat]

theorem map_congr_on {α β : Type} (l : List α) (f g : α → β)
    (h : ∀ a ∈ l, f a = g a) : l.map f = l.map g := by
  induction l with
  | nil => rfl
  | cons x xs ih =>
      simp only [List.map_cons, h x (List.mem_cons_self x xs)]
      rw [ih (fun a ha => h a (List.mem_cons_of_mem _ ha))]

theorem pushGroup_map (ks : List MType) (F : MType → List HRecord) (t : MType)
    (r : HRecord) (hnd : ks.Nodup) :
    pushGroup t r (ks.map fun k => (k, F k)) =
      if t ∈ ks then ks.map (fun k => (k, if k = t then F k ++ [r] else F k))
      else (ks.map fun k => (k, F k)) ++ [(t, [r])] := by
  induction ks with
  | nil => simp [pushGroup]
  | cons k ks ih =>
      have hk : k ∉ ks := (List.nodup_cons.mp hnd).1
      have hnd' : ks.Nodup := (List.nodup_cons.mp hnd).2
      by_cases hkt : k = t
      · subst hkt
        rw [List.map_cons,
          show pushGroup k r ((k, F k) :: ks.map fun a => (a, F a)) =
            (k, F k ++ [r]) :: ks.map (fun a => (a, F a)) by simp [pushGroup],
          if_pos (List.mem_cons_self _ _), List.map_cons, if_pos rfl]
        congr 1
        exact (map_congr_on ks _ _ (fun a ha => by
          rw [if_neg (fun hc : a = k => hk (hc ▸ ha))])).symm
      · have hbeq : (k == t) = false := by simp [hkt]
        rw [List.map_cons,
          show pushGroup t r ((k, F k) :: ks.map fun a => (a, F a)) =
            (k, F k) :: pushGroup t r (ks.map fun a => (a, F a)) by
              simp [pushGroup, hbeq],
          ih hnd']
        by_cases hmem : t ∈ ks
        · rw [if_pos hmem, if_pos (List.mem_cons_of_mem _ hmem), List.map_cons,
            if_neg hkt]
        · rw [if_neg hmem,
            if_neg (fun h => by
              rcases List.mem_cons.mp h with h | h
              · exact hkt h.symm
              · exact hmem h),
            List.cons_append]

theorem typeGroups_concat (l : List HRecord) (d : HRecord) :
    typeGroups (l ++ [d]) = pushGroup d.type d (typeGroups l) := by
  simp [typeGroups, List.foldl_append]

theorem filter_type_eq_nil (l : List HRecord) (t : MType)
    (h : t ∉ l.map (fun d => d.type)) :
    l.filter (fun d => d.type == t) = [] := by
  induction l with
  | nil => rfl
  | cons x xs ih =>
      simp only [List.map_cons, List.mem_cons] at h
      push_neg at h
      have hx : (x.type == t) = false := by
        simp only [beq_eq_false_iff_ne, ne_eq]
        exact fun hc => h.1 hc.symm
      simp only [List.filter_cons, hx, Bool.false_eq_true, if_false]
      exact ih h.2

/-- Correctness of the grouping object: `typeGroups` lists the distinct
types in first-occurrence order, each paired with the filtered subsequence
of records of that type (in insertion order). -/
theorem typeGroups_eq (l : List HRecord) :
    typeGroups l = (dedupFirst (l.map (fun d => d.type))).map
      (fun t => (t, l.filter (fun d => d.type == t))) := by
  induction l using List.reverseRecOn with
  | nil => rfl
  | append_singleton l d ih =>
      rw [typeGroups_concat, ih,
        pushGroup_map _ _ _ _ (nodup_dedupFirst _), List.map_append,
        List.map_cons, List.map_nil, dedupFirst_concat]
      by_cases hmem : d.type ∈ l.map (fun x => x.type)
      · rw [if_pos ((mem_dedupFirst _ _).mpr hmem), if_pos hmem, List.append_nil]
        apply map_congr_on
        intro a _
        by_cases hat : a = d.type
        · subst hat
          simp [List.filter_append]
        · have : (d.type == a) = false := by
            simp only [beq_eq_false_iff_ne, ne_eq]
            exact fun hc => hat hc.symm
          simp [List.filter_append, this, hat]
      · rw [if_neg (fun hc => hmem ((mem_dedupFirst _ _).mp hc)), if_neg hmem,
          List.map_append]
        congr 1
        · apply map_congr_on
          intro a ha
          have hat : a ≠ d.type := fun hc => hmem (hc ▸ (mem_dedupFirst _ _).mp ha)
          have : (d.type == a) = false := by
            simp only [beq_eq_false_iff_ne, ne_eq]
            exact fun hc => hat hc.symm
          simp [List.filter_append, this]
        · simp only [List.map_cons, List.map_nil]
          rw [List.filter_append, filter_type_eq_nil l d.type hmem]
          simp

/-- Lookup of a trend entry in a report built from distinct keys. -/
theorem trendOf_filterMap (t : MType) (F : MType → List HRecord) :
    ∀ ks : List MType, ks.Nodup →
      trendOf t (ks.filterMap (fun k => (trendFor (F k)).map (fun e => (k, e)))) =
        if t ∈ ks then trendFor (F t) else none := by
  intro ks
  induction ks with
  | nil => intro _; simp [trendOf]
  | cons k ks ih =>
      intro hnd
      have hk : k ∉ ks := (List.nodup_cons.mp hnd).1
      have hnd' : ks.Nodup := (List.nodup_cons.mp hnd).2
      rw [List.filterMap_cons]
      cases htf : trendFor (F k) with
      | none =>
          simp only [Option.map_none']
          rw [ih hnd']
          by_cases hkt : t = k
          · subst hkt
            rw [if_neg hk, if_pos (List.mem_cons_self _ _), htf]
          · simp [List.mem_cons, hkt]
      | some e =>
          simp only [Option.map_some']
          by_cases hkt : k = t
          · subst hkt
            simp only [trendOf, beq_self_eq_true, if_pos, List.mem_cons, true_or, if_true]
            exact htf.symm
          · have hbeq : (k == t) = false := by simp [hkt]
            simp only [trendOf, hbeq, Bool.false_eq_true, if_false]
            rw [ih hnd']
            by_cases hmem : t ∈ ks
            · rw [if_pos hmem, if_pos (List.mem_cons_of_mem _ hmem)]
            · rw [if_neg hmem, if_neg (by
                rintro h
                rcases List.mem_cons.mp h with rfl | h
                · exact hkt rfl
                · exact hmem h)]

/-- The trend entry reported for a type is exactly the trend computed from
the filtered subsequence of that type's records: undersized groups and
groups whose sorted first or last value fails to parse yield no entry. -/
theorem trendOf_insights (data : List HRecord) (t : MType) :
    trendOf t (generateHealthInsights data).trends =
      trendFor (data.filter (fun d => d.type == t)) := by
  show trendOf t ((typeGroups data).filterMap
      (fun p => (trendFor p.2).map (fun e => (p.1, e)))) = _
  rw [typeGroups_eq, List.filterMap_map]
  have : ((fun p : MType × List HRecord => (trendFor p.2).map (fun e => (p.1, e))) ∘
      (fun t => (t, data.filter (fun d => d.type == t)))) =
      (fun k => (trendFor (data.filter (fun d => d.type == k))).map (fun e => (k, e))) := rfl
  rw [this, trendOf_filterMap t _ _ (nodup_dedupFirst _)]
  by_cases hmem : t ∈ dedupFirst (data.map (fun d => d.type))
  · rw [if_pos hmem]
  · rw [if_neg hmem]
    rw [filter_type_eq_nil data t (fun hc => hmem ((mem_dedupFirst _ _).mpr hc))]
    rfl

/-! Branch tables of the metric-query path, read off the `generateResponse`
branch cascade, used to state per-type properties uniformly. -/

/-- Keyword searched, strictly-higher-priority metric keywords, and canned
no-data reply of the three metric types `generateResponse` answers, in its
branch order (weight, then blood pressure, then heart rate).  The other
seven metric types have no query branch at all. -/
def metricBranch : MType → Option (String × List String × String)
  | .weight => some ("weight", [], weightNoDataMsg)
  | .blood_pressure => some ("blood pressure", ["weight"], bloodPressureNoDataMsg)
  | .heart_rate => some ("heart rate", ["weight", "blood pressure"], heartRateNoDataMsg)
  | _ => none

/-- Reply composed by the query branch of type `t` for a latest record: the
source's template literals.  The blood-pressure branch interpolates the
value only — it never mentions `latest.unit`. -/
def queryReply : MType → HRecord → Option String
  | .weight, latest => some ("Your latest weight is " ++ showValue latest.value ++ " " ++
      latest.unit ++ ". " ++ weightAdvice)
  | .blood_pressure, latest => some ("Your latest blood pressure is " ++
      showValue latest.value ++ ". " ++ bloodPressureAdvice)
  | .heart_rate, latest => some ("Your latest heart rate is " ++ showValue latest.value ++
      " " ++ latest.unit ++ ". " ++ heartRateAdvice)
  | _, _ => none

/-- Every conversation stored in the map has an even number of turns
(user/assistant pairs intact). -/
def evenConvs (st : ServerState) : Prop :=
  ∀ p ∈ st.conversations, Even p.2.length

/-! More supporting lemmas. -/

theorem getRandomResponse_mem (l : List String) (r : Nat) (h : 0 < l.length) :
    getRandomResponse l r ∈ l := by
  rw [getRandomResponse, dif_pos h]
  exact List.get_mem _ _ _

theorem mem_alSet {α : Type} (m : List (String × α)) (k : String) (v : α) :
    ∀ p ∈ alSet m k v, p = (k, v) ∨ p ∈ m := by
  induction m with
  | nil =>
      intro p hp
      rw [alSet] at hp
      exact Or.inl (List.mem_singleton.mp hp)
  | cons q m ih =>
      obtain ⟨k', v'⟩ := q
      intro p hp
      rw [alSet] at hp
      by_cases hk : k' == k
      · rw [if_pos hk] at hp
        rcases List.mem_cons.mp hp with rfl | hp
        · exact Or.inl rfl
        · exact Or.inr (List.mem_cons_of_mem _ hp)
      · rw [if_neg hk] at hp
        rcases List.mem_cons.mp hp with rfl | hp
        · exact Or.inr (List.mem_cons_self _ _)
        · rcases ih p hp with h | h
          · exact Or.inl h
          · exact Or.inr (List.mem_cons_of_mem _ h)

theorem alGet_getD_even (st : ServerState) (h : evenConvs st) (k : String) :
    Even ((alGet st.conversations k).getD []).length := by
  cases hal : alGet st.conversations k with
  | none => simp
  | some c =>
      rw [alGet] at hal
      cases hf : st.conversations.find? (fun p => p.1 == k) with
      | none => rw [hf] at hal; simp at hal
      | some p =>
          rw [hf] at hal
          simp only [Option.map_some', Option.some.injEq] at hal
          subst hal
          simpa using h p (List.mem_of_find?_eq_some hf)

theorem jsSliceLast_ten {α : Type} (l : List α) (h : Even l.length) :
    (jsSliceLast 10 l).length ≤ 10 ∧ Even (jsSliceLast 10 l).length := by
  rw [jsSliceLast, List.length_drop]
  rw [Nat.even_iff] at h
  constructor
  · omega
  · rw [Nat.even_iff]
    omega

theorem chatHandler_step (st : ServerState) (message sessionId userId : String)
    (r : Nat) (nowU nowB : Int) (h : evenConvs st) :
    evenConvs (chatHandler st message sessionId userId r nowU nowB).1 ∧
    (chatHandler st message sessionId userId r nowU nowB).2.conversation.length ≤ 10 ∧
    Even (chatHandler st message sessionId userId r nowU nowB).2.conversation.length := by
  have hc : Even ((alGet st.conversations sessionId).getD []).length :=
    alGet_getD_even st h sessionId
  have hc2 : Even (((alGet st.conversations sessionId).getD []) ++
      [ { type := "user", message := message, timestamp := nowU }
      , { type := "bot",
          message := generateResponse r message ((alGet st.healthData userId).getD []),
          timestamp := nowB } ] : List Turn).length := by
    rw [List.length_append]
    rw [Nat.even_iff] at hc ⊢
    simp only [List.length_cons, List.length_nil]
    omega
  refine ⟨?_, (jsSliceLast_ten _ hc2).1, (jsSliceLast_ten _ hc2).2⟩
  intro p hp
  rcases mem_alSet _ _ _ p hp with rfl | hp
  · exact hc2
  · exact h p hp

theorem runChats_even (calls : List ChatCall) :
    ∀ st : ServerState, evenConvs st → ∀ res ∈ (runChats st calls).2,
      res.conversation.length ≤ 10 ∧ Even res.conversation.length := by
  induction calls with
  | nil => intro st _ res hres; simp [runChats] at hres
  | cons c cs ih =>
      intro st hst res hres
      simp only [runChats] at hres
      have hstep := chatHandler_step st c.message c.sessionId c.userId c.rand c.nowU c.nowB hst
      rcases List.mem_cons.mp hres with rfl | hres
      · exact ⟨hstep.2.1, hstep.2.2⟩
      · exact ih _ hstep.1 res hres

/-! Concrete records used to instantiate the claims. -/

/-- A weight record of 70 kg at time 1. -/
def exW70 : HRecord :=
  { id := "w-1", type := .weight, value := .num 70, unit := "kg", timestamp := 1 }

/-- A weight record of 68 kg at time 2. -/
def exW68 : HRecord :=
  { id := "w-2", type := .weight, value := .num 68, unit := "kg", timestamp := 2 }

/-- A back-dated weight record of 68 kg at time 0 (earlier than `exW70`). -/
def exW68Back : HRecord :=
  { id := "w-3", type := .weight, value := .num 68, unit := "kg", timestamp := 0 }

/-- A blood-pressure record with the composite string value "120/80". -/
def exBP120 : HRecord :=
  { id := "bp-1", type := .blood_pressure, value := .str "120/80", unit := "mmHg",
    timestamp := 1 }

/-- A blood-pressure record with the composite string value "130/85". -/
def exBP130 : HRecord :=
  { id := "bp-2", type := .blood_pressure, value := .str "130/85", unit := "mmHg",
    timestamp := 2 }

/-- A blood-pressure record whose value "high" has no numeric prefix. -/
def exBPHigh : HRecord :=
  { id := "bp-3", type := .blood_pressure, value := .str "high", unit := "mmHg",
    timestamp := 3 }

/-- A blood-pressure record whose value "low" has no numeric prefix. -/
def exBPLow : HRecord :=
  { id := "bp-4", type := .blood_pressure, value := .str "low", unit := "mmHg",
    timestamp := 4 }

/-- One example chat request. -/
def exChatCall : ChatCall :=
  { message := "hello", sessionId := "s1", userId := "u1", rand := 0, nowU := 5, nowB := 6 }

/-- The response body produced by the example chat request on a fresh
server. -/
def exChatRes : ChatResult :=
  (chatHandler initialState "hello" "s1" "u1" 0 5 6).2

/-! The claims. -/

set_option maxRecDepth 400000

/-- C1, counterexample: the claim quantifies over all ten metric types, but
the chatbot has query branches only for weight, blood pressure and heart
rate.  The message "blood sugar" (the human name of `blood_sugar`, no
greeting keyword) with zero records resolves to the default echo reply,
which is not a type-specific "would you like to log it?" prompt (it does
not contain "Would you like to"). -/
theorem claim1_counterexample :
    generateResponse 0 "blood sugar" [] = defaultResponse "blood sugar" ∧
    jsIncludes (generateResponse 0 "blood sugar" []) "Would you like to" = false := by
  constructor
  · decide
  · decide

/-- C1, amended: for each of the three metric types with a query branch
(weight, blood_pressure, heart_rate — `metricBranch`), a message that
contains the type's keyword, no greeting keyword, and no higher-priority
metric keyword, asked by a user with zero records of that type, yields
exactly that type's canned no-data prompt — never a crash. -/
theorem claim1_noDataPrompt (t : MType) (kw : String) (higher : List String)
    (prompt : String) (r : Nat) (message : String) (data : List HRecord)
    (hbranch : metricBranch t = some (kw, higher, prompt))
    (hg : (jsIncludes (jsToLowerCase message) "hello" ||
        jsIncludes (jsToLowerCase message) "hi" ||
        jsIncludes (jsToLowerCase message) "hey") = false)
    (hkw : jsIncludes (jsToLowerCase message) kw = true)
    (hhigher : ∀ k ∈ higher, jsIncludes (jsToLowerCase message) k = false)
    (hempty : data.filter (fun d => d.type == t) = []) :
    generateResponse r message data = prompt := by
  cases t <;> simp [metricBranch] at hbranch
  · obtain ⟨rfl, rfl, rfl⟩ := hbranch
    simp only [generateResponse, hg, hkw, hempty, Bool.false_eq_true, eq_self_iff_true,
      if_true, if_false, List.getLast?_nil]
  · obtain ⟨rfl, rfl, rfl⟩ := hbranch
    have hw : jsIncludes (jsToLowerCase message) "weight" = false :=
      hhigher "weight" (by simp)
    simp only [generateResponse, hg, hkw, hw, hempty, Bool.false_eq_true, eq_self_iff_true,
      if_true, if_false, List.getLast?_nil]
  · obtain ⟨rfl, rfl, rfl⟩ := hbranch
    have hw : jsIncludes (jsToLowerCase message) "weight" = false :=
      hhigher "weight" (by simp)
    have hbp : jsIncludes (jsToLowerCase message) "blood pressure" = false :=
      hhigher "blood pressure" (by simp)
    simp only [generateResponse, hg, hkw, hw, hbp, hempty, Bool.false_eq_true,
      eq_self_iff_true, if_true, if_false, List.getLast?_nil]

/-- Witness for C1: the message "blood pressure" with no records yields the
blood-pressure no-data prompt. -/
theorem claim1_noDataPrompt_witness :
    generateResponse 0 "blood pressure" [] = bloodPressureNoDataMsg :=
  claim1_noDataPrompt .blood_pressure "blood pressure" ["weight"] bloodPressureNoDataMsg
    0 "blood pressure" [] rfl (by decide) (by decide) (by decide) rfl

/-- C2, counterexample: two blood-pressure records with the composite
string values "120/80" and "130/85" are claimed to be skipped from trend
computation, but JavaScript `parseFloat` reads the leading numeric prefix
(120 and 130), so a trend entry IS emitted for `blood_pressure`. -/
theorem claim2_counterexample :
    trendOf .blood_pressure (generateHealthInsights [exBP120, exBP130]).trends =
      some { change := 10, percentChange := 83/10, direction := "increase",
             recordCount := 2 } := by
  have hp1 : jsParseFloat exBP120.value = some 120 := by
    have h : parseParts "120/80".data = some (1, 120, 0, 0, 0) := by decide
    show jsParseFloatChars "120/80".data = some 120
    rw [jsParseFloatChars, h]; norm_num
  have hp2 : jsParseFloat exBP130.value = some 130 := by
    have h : parseParts "130/85".data = some (1, 130, 0, 0, 0) := by decide
    show jsParseFloatChars "130/85".data = some 130
    rw [jsParseFloatChars, h]; norm_num
  have hs : sortByTs [exBP120, exBP130] = [exBP120, exBP130] := by decide
  have hg : typeGroups [exBP120, exBP130] = [(.blood_pressure, [exBP120, exBP130])] := by
    decide
  have ht : trendFor [exBP120, exBP130] = some
      ⟨(130 : ℚ) - 120, toFixed1 (((130 : ℚ) - 120) / 120 * 100),
        if (0 : ℚ) < (130 : ℚ) - 120 then "increase"
          else if (130 : ℚ) - 120 < 0 then "decrease" else "stable", 2⟩ := by
    simp only [trendFor, hs, List.head?, List.getLast?, List.length_cons, List.length_nil]
    norm_num [hp1, hp2]
  simp only [generateHealthInsights, hg, List.filterMap_cons, List.filterMap_nil, ht,
    Option.map_some']
  norm_num [trendOf, toFixed1]

/-- C2, amended: a metric group (with at least two timestamp-sorted
members) is skipped from trend computation exactly in the case that
`parseFloat` of the sorted-first or sorted-last member's value is NaN —
e.g. the string "high" or an object, but not "120/80", which parses to its
leading number. -/
theorem claim2_nonNumericSkipped (data : List HRecord) (t : MType)
    (h : ∀ f l : HRecord,
      (sortByTs (data.filter (fun d => d.type == t))).head? = some f →
      (sortByTs (data.filter (fun d => d.type == t))).getLast? = some l →
      jsParseFloat f.value = none ∨ jsParseFloat l.value = none) :
    trendOf t (generateHealthInsights data).trends = none := by
  rw [trendOf_insights]
  simp only [trendFor]
  split
  · split
    · rename_i hlen f l hh hl
      split
      · rename_i firstV lastV hpf hpl
        rcases h f l hh hl with hp | hp
        · rw [hpf] at hp; exact absurd hp (by simp)
        · rw [hpl] at hp; exact absurd hp (by simp)
      · rfl
    · rfl
  · rfl

/-- Witness for C2: two blood-pressure records valued "high" and "low"
(no numeric prefix) produce no blood-pressure trend entry. -/
theorem claim2_nonNumericSkipped_witness :
    trendOf .blood_pressure (generateHealthInsights [exBPHigh, exBPLow]).trends = none :=
  claim2_nonNumericSkipped [exBPHigh, exBPLow] .blood_pressure (by
    intro f l hf hl
    have hs : sortByTs ([exBPHigh, exBPLow].filter
        (fun d => d.type == MType.blood_pressure)) = [exBPHigh, exBPLow] := by decide
    rw [hs] at hf hl
    obtain rfl : exBPHigh = f := Option.some.inj hf
    exact Or.inl (by decide))

/-- C3: the claim (and the Joi schema's `timestamp: Joi.date().default(Date.now)`)
says a client-supplied timestamp is kept, the write time being stamped only
when it is absent.  The handler instead builds
`{ id: uuidv4(), ...value, timestamp: new Date() }`, whose `timestamp`
field, written after the spread, unconditionally replaces the supplied
value: posting a record back-dated to time 100 at server time 200 stores
timestamp 200. -/
theorem claim3_timestampOverwritten :
    ((postHealthDataHandler initialState
        { type := .weight, value := .num 70, unit := "kg", timestamp := some 100 }
        "id-1" 200).2.timestamp = 200) ∧ (200 : Int) ≠ 100 := by
  constructor
  · rfl
  · decide

/-- C4, counterexample: for a blood-pressure query with one stored record
(value "120/80", unit "mmHg"), the reply interpolates only the value — the
unit never appears, contradicting the claimed
"Your latest <type> is <value> <unit>. <advice>" shape for blood_pressure. -/
theorem claim4_counterexample :
    generateResponse 0 "blood pressure" [exBP120] =
      "Your latest blood pressure is 120/80. " ++ bloodPressureAdvice ∧
    jsIncludes (generateResponse 0 "blood pressure" [exBP120]) "mmHg" = false := by
  constructor
  · decide
  · decide

/-- C4, amended: for a metric query on a type with a non-empty filtered
list, the reply is composed from the last element of the insertion-ordered
filtered list (not the most recent by timestamp), in the shape given by
`queryReply`: value and unit for weight and heart_rate, value only (no
unit) for blood_pressure, each followed by the type's fixed advice
string. -/
theorem claim4_latestReply (t : MType) (kw : String) (higher : List String)
    (prompt : String) (r : Nat) (message : String) (data : List HRecord)
    (latest : HRecord) (reply : String)
    (hbranch : metricBranch t = some (kw, higher, prompt))
    (hg : (jsIncludes (jsToLowerCase message) "hello" ||
        jsIncludes (jsToLowerCase message) "hi" ||
        jsIncludes (jsToLowerCase message) "hey") = false)
    (hkw : jsIncludes (jsToLowerCase message) kw = true)
    (hhigher : ∀ k ∈ higher, jsIncludes (jsToLowerCase message) k = false)
    (hlast : (data.filter (fun d => d.type == t)).getLast? = some latest)
    (hreply : queryReply t latest = some reply) :
    generateResponse r message data = reply := by
  cases t <;> simp [metricBranch] at hbranch
  · obtain ⟨rfl, rfl, rfl⟩ := hbranch
    simp only [queryReply, Option.some.injEq] at hreply
    subst hreply
    simp only [generateResponse, hg, hkw, hlast, Bool.false_eq_true, eq_self_iff_true,
      if_true, if_false]
  · obtain ⟨rfl, rfl, rfl⟩ := hbranch
    have hw : jsIncludes (jsToLowerCase message) "weight" = false :=
      hhigher "weight" (by simp)
    simp only [queryReply, Option.some.injEq] at hreply
    subst hreply
    simp only [generateResponse, hg, hkw, hw, hlast, Bool.false_eq_true, eq_self_iff_true,
      if_true, if_false]
  · obtain ⟨rfl, rfl, rfl⟩ := hbranch
    have hw : jsIncludes (jsToLowerCase message) "weight" = false :=
      hhigher "weight" (by simp)
    have hbp : jsIncludes (jsToLowerCase message) "blood pressure" = false :=
      hhigher "blood pressure" (by simp)
    simp only [queryReply, Option.some.injEq] at hreply
    subst hreply
    simp only [generateResponse, hg, hkw, hw, hbp, hlast, Bool.false_eq_true,
      eq_self_iff_true, if_true, if_false]

/-- Witness for C4: with two weight records inserted as 70 kg (time 1) then
68 kg (back-dated to time 0), the query "weight" reports the last-inserted
68 kg — insertion order, not timestamp order. -/
theorem claim4_latestReply_witness :
    generateResponse 0 "weight" [exW70, exW68Back] =
      "Your latest weight is 68 kg. " ++ weightAdvice :=
  claim4_latestReply .weight "weight" [] weightNoDataMsg 0 "weight" [exW70, exW68Back]
    exW68Back ("Your latest weight is 68 kg. " ++ weightAdvice)
    rfl (by decide) (by decide) (by decide) (by decide) (by decide)

/-- C5: recording weight 70 kg then 68 kg (timestamps ascending) yields the
weight trend entry with change −2, percent change −2.9 (the value denoted
by `toFixed(1)`), direction "decrease", and record count 2 — the claim's
delta/percentDelta/sampleCount under the source's field names. -/
theorem claim5_weightTrendScenario :
    trendOf .weight (generateHealthInsights [exW70, exW68]).trends =
      some { change := -2, percentChange := -29/10, direction := "decrease",
             recordCount := 2 } := by
  have h2 : trendOf .weight (generateHealthInsights [exW70, exW68]).trends =
      some { change := (68 : ℚ) - 70, percentChange := toFixed1 (((68 : ℚ) - 70) / 70 * 100),
             direction := if (0 : ℚ) < (68 : ℚ) - 70 then "increase"
               else if (68 : ℚ) - 70 < 0 then "decrease" else "stable",
             recordCount := 2 } := rfl
  rw [h2]
  norm_num [toFixed1]

/-- C6: a message whose lowercased text contains "hello", "hi" or "hey" is
always answered with one of the three canned greetings, whatever metric
keywords it also contains and whatever data exists — the greeting branch
is tested first. -/
theorem claim6_greetingPriority (r : Nat) (message : String) (data : List HRecord)
    (hg : (jsIncludes (jsToLowerCase message) "hello" ||
        jsIncludes (jsToLowerCase message) "hi" ||
        jsIncludes (jsToLowerCase message) "hey") = true) :
    generateResponse r message data ∈ greetingResponses := by
  simp only [generateResponse, hg, if_true]
  exact getRandomResponse_mem _ _ (by decide)

/-- Witness for C6: scenario B — "hello, what\x27s my blood pressure"
with no records is answered with a greeting, not the blood-pressure
no-data reply. -/
theorem claim6_greetingPriority_witness :
    generateResponse 0 "hello, what\x27s my blood pressure" [] ∈ greetingResponses :=
  claim6_greetingPriority 0 "hello, what\x27s my blood pressure" [] (by decide)

/-- C7: every response body produced by any sequence of chat calls on a
fresh server carries a `conversation` slice of at most 10 turns, always of
even length (user/bot pairs intact). -/
theorem claim7_recentHistoryBounded (calls : List ChatCall) :
    ∀ res ∈ (runChats initialState calls).2,
      res.conversation.length ≤ 10 ∧ Even res.conversation.length :=
  runChats_even calls initialState (fun p hp => absurd hp (List.not_mem_nil p))

/-- Witness for C7: the single example chat call returns a history of at
most 10 and even length. -/
theorem claim7_recentHistoryBounded_witness :
    exChatRes.conversation.length ≤ 10 ∧ Even exChatRes.conversation.length :=
  claim7_recentHistoryBounded [exChatCall] exChatRes (by decide)

/-- C8: for a non-empty measurement list the summary has exactly one line
per distinct type, listed in first-occurrence order, and each line is
rendered from that type's filtered subsequence — whose last element and
length are the last-inserted value/unit and the record count. -/
theorem claim8_summaryLines (data : List HRecord) (h : data ≠ []) :
    summaryLines data = (dedupFirst (data.map (fun d => d.type))).map
      (fun t => summaryLine t (data.filter (fun d => d.type == t))) ∧
    (summaryLines data).length = (dedupFirst (data.map (fun d => d.type))).length ∧
    generateHealthSummary data =
      "📊 **Health Summary:**\n\n" ++ String.join (summaryLines data) ++ summaryClosing := by
  have h1 : summaryLines data = (dedupFirst (data.map (fun d => d.type))).map
      (fun t => summaryLine t (data.filter (fun d => d.type == t))) := by
    rw [summaryLines, typeGroups_eq, List.map_map]
    rfl
  refine ⟨h1, ?_, rfl⟩
  rw [h1, List.length_map]

/-- Witness for C8: a three-record list with two distinct types. -/
theorem claim8_summaryLines_witness :
    summaryLines [exW70, exBP120, exW68] =
      (dedupFirst ([exW70, exBP120, exW68].map (fun d => d.type))).map
        (fun t => summaryLine t ([exW70, exBP120, exW68].filter (fun d => d.type == t))) ∧
    (summaryLines [exW70, exBP120, exW68]).length =
      (dedupFirst ([exW70, exBP120, exW68].map (fun d => d.type))).length ∧
    generateHealthSummary [exW70, exBP120, exW68] =
      "📊 **Health Summary:**\n\n" ++
        String.join (summaryLines [exW70, exBP120, exW68]) ++ summaryClosing :=
  claim8_summaryLines [exW70, exBP120, exW68] (by decide)

/-- C9: the list and insights handlers return the state unchanged (the
insights computation sorts only freshly built group lists, never the
store), so two list reads around an insights read return identical
sequences. -/
theorem claim9_readOnlyHandlers (st : ServerState) (u v : String) :
    (insightsHandler st v).1 = st ∧
    (getHealthDataHandler st u).1 = st ∧
    (getHealthDataHandler ((insightsHandler ((getHealthDataHandler st u).1) v).1) u).2 =
      (getHealthDataHandler st u).2 := by
  have hIns : ∀ (s : ServerState) (w : String), (insightsHandler s w).1 = s := by
    intro s w
    simp only [insightsHandler]
    split <;> rfl
  refine ⟨hIns st v, rfl, ?_⟩
  rw [show (getHealthDataHandler st u).1 = st from rfl, hIns st v]

/-- C10: greeting detection is plain substring containment on the
lowercased text, so any message containing "hi" — also inside a longer
word such as "history" or "this" — is answered with a canned greeting,
never as a metric query or summary. -/
theorem claim10_hiSubstringGreeting (r : Nat) (message : String) (data : List HRecord)
    (h : jsIncludes (jsToLowerCase message) "hi" = true) :
    generateResponse r message data ∈ greetingResponses := by
  simp only [generateResponse, h, Bool.or_true, Bool.true_or, if_true]
  exact getRandomResponse_mem _ _ (by decide)

/-- Witness for C10: "show my weight history" is answered with a greeting
even though weight data exists and the word "weight" occurs. -/
theorem claim10_hiSubstringGreeting_witness :
    generateResponse 0 "show my weight history" [exW70] ∈ greetingResponses :=
  claim10_hiSubstringGreeting 0 "show my weight history" [exW70] (by decide)

end ChatApp
